import Mathlib

/-!
Verification of the midi-listener library: shallow embedding of
`source/MidiListener.ts` (message parsing, semantic-event dispatch, note
frequency, input curation) and `source/utilities/Caller.ts` (the observer
list), with theorems checking the specification's claims.

Conventions of the embedding:
* a raw MIDI message is a `List ℕ` of bytes (`message.data`);
* JavaScript `undefined` data fields become `Option.none`
  (`data[1]` / `data[2]` on short messages), and the `NaN` produced by
  `undefined / 127` likewise becomes `none` for the normalized `value`;
* `data[2] / 127` is exact division in `ℚ`;
* `Math.pow` on real arguments is real exponentiation (`Real.rpow`);
* callbacks are identified by `ℕ` tokens compared by identity (`!==`).
-/

/-- Parsed MIDI message, the `MessageReport` record of `reports.ts`. -/
structure MessageReport where
  data : List ℕ
  command : ℕ
  channel : ℕ
  code : Option ℕ
  value : Option ℚ
  deriving Repr, DecidableEq

/-- Embedding of `MidiListener.parseMidiMessage`:
`command = data[0] >> 4`, `channel = data[0] & 0xf`, `code = data[1]`,
`value = data[2] / 127`.  Missing bytes give `none`. -/
def parseMidiMessage (data : List ℕ) : MessageReport :=
  { data := data
    command := data.getD 0 0 >>> 4
    channel := data.getD 0 0 &&& 0xf
    code := data.get? 1
    value := (data.get? 2).map (fun (d : ℕ) => (d : ℚ) / 127) }

/-- Embedding of `MidiListener.noteCodeToFrequency`:
`440 * Math.pow(2, (code - 69) / 12)`. -/
noncomputable def noteCodeToFrequency (code : ℝ) : ℝ :=
  440 * (2 : ℝ) ^ ((code - 69) / 12)

/-- Semantic events emitted by the listener, one constructor per callback
(`onMessage`, `onInputChange`, `onNote`, `onPad`, `onModWheel`,
`onPitchBend`).  The order of a `List Event` models the order of callback
invocations. -/
inductive Event where
  | message (report : MessageReport)
  | inputChange (inputNames : List String)
  | note (code : Option ℕ) (velocity : Option ℚ) (frequency : Option ℝ)
  | pad (code : Option ℕ) (velocity : Option ℚ)
  | modWheel (value : Option ℚ)
  | pitchBend (value : Option ℚ)

/-- Embedding of `MidiListener.handleMidiMessage`.  The emitted events, in
invocation order: `onMessage` always fires first with the parsed report;
then for commands 8/9 (with `velocity = isStopCommand ? value : -value`
where `isStopCommand = command === 9`) channels 0/15 fire `onNote` and
channel 9 fires `onPad`; command 11 with `code === 1` fires `onModWheel`;
command 14 fires `onPitchBend`. -/
noncomputable def handleMidiMessage (data : List ℕ) : List Event :=
  let report := parseMidiMessage data
  Event.message report ::
    (if report.command = 8 ∨ report.command = 9 then
      -- const isStopCommand = command === 9; velocity = isStopCommand ? value : -value
      let velocity := if report.command = 9 then report.value
        else report.value.map (fun v => -v)
      if report.channel = 0 ∨ report.channel = 15 then
        [Event.note report.code velocity
          (report.code.map (fun c => noteCodeToFrequency c))]
      else if report.channel = 9 then
        [Event.pad report.code velocity]
      else []
    else if report.command = 11 then
      if report.code = some 1 then [Event.modWheel report.value] else []
    else if report.command = 14 then
      [Event.pitchBend report.value]
    else [])

/-- A MIDI input device as seen through the Web MIDI `MIDIInput` interface
(`web-midi.d.ts`): the fields `curateMidiInputs` reads (`name`, `state`,
`connection`) and the writable `onmidimessage` handler slot. -/
structure MIDIInput where
  id : String
  name : String
  state : String
  connection : String
  onmidimessage : Option (List ℕ → List Event)

/-- The count computed by the loop in `curateMidiInputs`: the number of
inputs with `state === "connected" && connection === "open"`. -/
def openConnectionCount (inputs : List MIDIInput) : ℕ :=
  (inputs.filter (fun i => i.state = "connected" ∧ i.connection = "open")).length

/-- Result of one `curateMidiInputs` pass: the input list after handler
re-attachment, the events emitted during the pass, and the new value of
the `numberOfOpenConnections` field (`none` models JavaScript
`undefined`, the field's value before the first pass). -/
structure CurateResult where
  inputs : List MIDIInput
  events : List Event
  numberOfOpenConnections : Option ℕ

/-- Embedding of `MidiListener.curateMidiInputs`.  The loop assigns
`input.onmidimessage = message => this.handleMidiMessage(message)` to
every input, collects every `input.name`, and counts open connections;
then `onInputChange` fires with the full name list if and only if
`numberOfOpenConnections !== this.numberOfOpenConnections` (any number
differs from the initial `undefined`), in which case the stored count is
updated. -/
noncomputable def curateMidiInputs (inputs : List MIDIInput)
    (stored : Option ℕ) : CurateResult :=
  let wired := inputs.map
    (fun input => { input with onmidimessage := some (fun m => handleMidiMessage m) })
  let inputNames := inputs.map (fun input => input.name)
  let n := openConnectionCount inputs
  if some n ≠ stored then
    { inputs := wired
      events := [Event.inputChange inputNames]
      numberOfOpenConnections := some n }
  else
    { inputs := wired
      events := []
      numberOfOpenConnections := stored }

/-- Embedding of `Caller.remove` from `utilities/Caller.ts`:
`this.callbacks = this.callbacks.filter(cb => cb !== callback)`.
Callbacks are identity tokens in `ℕ`. -/
def Caller.remove (callbacks : List ℕ) (callback : ℕ) : List ℕ :=
  callbacks.filter (fun cb => cb ≠ callback)

/-- Embedding of `Caller.add`: `this.callbacks.push(callback)`. -/
def Caller.add (callbacks : List ℕ) (callback : ℕ) : List ℕ :=
  callbacks ++ [callback]

/-- Embedding of `Caller.clear`: `this.callbacks = []`. -/
def Caller.clear : List ℕ := []

/-- The iteration inside `Caller.invoke`: `for (const callback of
this.callbacks) callback.apply(null, args)`.  The `for...of` loop walks
the array object captured when the loop started, while `Caller.remove`
rebinds `this.callbacks` to a fresh filtered array — so the snapshot
being iterated is unaffected by removals performed by the callbacks.
`behavior cb` lists the callbacks that callback `cb` removes (via
`Caller.remove`) when invoked; the result is the invocation log paired
with the final callback array. -/
def invokeFrom (behavior : ℕ → List ℕ) :
    List ℕ → List ℕ → List ℕ × List ℕ
  | [], st => ([], st)
  | cb :: rest, st =>
      let st2 := (behavior cb).foldl Caller.remove st
      let r := invokeFrom behavior rest st2
      (cb :: r.1, r.2)

/-- Embedding of `Caller.invoke`: iterate over the snapshot of the
current callback array, letting each invoked callback mutate the array
through `Caller.remove` as described by `behavior`. -/
def Caller.invoke (behavior : ℕ → List ℕ) (callbacks : List ℕ) :
    List ℕ × List ℕ :=
  invokeFrom behavior callbacks callbacks

/-- The `events` record of the subscription-based `MidiListener`: one
`Caller` (callback array) per event kind. -/
structure EventCallers where
  onInputChange : List ℕ
  onMessage : List ℕ
  onNote : List ℕ
  onPad : List ℕ
  onPitchBend : List ℕ
  onModWheel : List ℕ
  deriving Repr, DecidableEq

/-- A `MidiListenerEventCallbacks` configuration object: each field is an
optional callback (`none` models an absent property). -/
structure MidiListenerEventCallbacks where
  onInputChange : Option ℕ
  onMessage : Option ℕ
  onNote : Option ℕ
  onPad : Option ℕ
  onPitchBend : Option ℕ
  onModWheel : Option ℕ
  deriving Repr, DecidableEq

/-- One step of the `subscribe` loop: `if (callbacks[eventName])
this.events[eventName].add(callbacks[eventName])`. -/
def addIfPresent (callbacks : List ℕ) : Option ℕ → List ℕ
  | none => callbacks
  | some cb => Caller.add callbacks cb

/-- One step of the loop in the closure `subscribe` returns:
`if (callbacks[eventName]) this.events[eventName].remove(callbacks[eventName])`. -/
def removeIfPresent (callbacks : List ℕ) : Option ℕ → List ℕ
  | none => callbacks
  | some cb => Caller.remove callbacks cb

/-- Embedding of `MidiListener.subscribe`: add each present callback of
the configuration to the matching event's `Caller`. -/
def subscribe (events : EventCallers) (cfg : MidiListenerEventCallbacks) :
    EventCallers :=
  { onInputChange := addIfPresent events.onInputChange cfg.onInputChange
    onMessage := addIfPresent events.onMessage cfg.onMessage
    onNote := addIfPresent events.onNote cfg.onNote
    onPad := addIfPresent events.onPad cfg.onPad
    onPitchBend := addIfPresent events.onPitchBend cfg.onPitchBend
    onModWheel := addIfPresent events.onModWheel cfg.onModWheel }

/-- Embedding of the revocation closure returned by
`MidiListener.subscribe`: remove each present callback of the same
configuration from the matching event's `Caller`, whatever the event
state has become in the meantime. -/
def unsubscribe (events : EventCallers) (cfg : MidiListenerEventCallbacks) :
    EventCallers :=
  { onInputChange := removeIfPresent events.onInputChange cfg.onInputChange
    onMessage := removeIfPresent events.onMessage cfg.onMessage
    onNote := removeIfPresent events.onNote cfg.onNote
    onPad := removeIfPresent events.onPad cfg.onPad
    onPitchBend := removeIfPresent events.onPitchBend cfg.onPitchBend
    onModWheel := removeIfPresent events.onModWheel cfg.onModWheel }

/-- C4: parsing a raw message is a pure, total function on byte
sequences of length 1 to 3 — it is defined (never fails) on every such
sequence, and for short input the missing fields degrade gracefully:
`code` is absent and `value` is absent (the JavaScript `undefined` /
`NaN`) rather than erroring. -/
theorem parse_total_graceful (d0 d1 d2 : ℕ) :
    parseMidiMessage [d0] =
      { data := [d0], command := d0 >>> 4, channel := d0 &&& 0xf,
        code := none, value := none } ∧
    parseMidiMessage [d0, d1] =
      { data := [d0, d1], command := d0 >>> 4, channel := d0 &&& 0xf,
        code := some d1, value := none } ∧
    parseMidiMessage [d0, d1, d2] =
      { data := [d0, d1, d2], command := d0 >>> 4, channel := d0 &&& 0xf,
        code := some d1, value := some ((d2 : ℚ) / 127) } :=
  ⟨rfl, rfl, rfl⟩

/-- C6: the note-to-frequency conversion satisfies
`frequency(code) = 440 * 2 ^ ((code - 69) / 12)` for all real `code`;
in particular `frequency 69 = 440` and `frequency 81 = 880`, and for
every `code`, `frequency (code + 12) = 2 * frequency code`. -/
theorem noteCodeToFrequency_spec :
    (∀ code : ℝ, noteCodeToFrequency code = 440 * (2 : ℝ) ^ ((code - 69) / 12)) ∧
    noteCodeToFrequency 69 = 440 ∧
    noteCodeToFrequency 81 = 880 ∧
    (∀ code : ℝ, noteCodeToFrequency (code + 12) = 2 * noteCodeToFrequency code) := by
  refine ⟨fun code => rfl, ?_, ?_, ?_⟩
  · have h : ((69 : ℝ) - 69) / 12 = 0 := by norm_num
    rw [noteCodeToFrequency, h, Real.rpow_zero]
    norm_num
  · have h : ((81 : ℝ) - 69) / 12 = 1 := by norm_num
    rw [noteCodeToFrequency, h, Real.rpow_one]
    norm_num
  · intro code
    have h : (code + 12 - 69) / 12 = (code - 69) / 12 + 1 := by ring
    rw [noteCodeToFrequency, noteCodeToFrequency, h,
      Real.rpow_add (by norm_num : (0 : ℝ) < 2), Real.rpow_one]
    ring

/-- C7: for raw messages whose data bytes are valid 7-bit MIDI fields
(each at most 127), the parsed record has `channel ≤ 15` unconditionally
(low nibble of the status byte), `code ≤ 127` whenever present, and
`value ∈ [0, 1]` whenever present. -/
theorem parse_field_bounds (data : List ℕ)
    (hbytes : ∀ d ∈ data.tail, d ≤ 127) :
    (parseMidiMessage data).channel ≤ 15 ∧
    (∀ c, (parseMidiMessage data).code = some c → c ≤ 127) ∧
    (∀ v, (parseMidiMessage data).value = some v → 0 ≤ v ∧ v ≤ 1) := by
  refine ⟨Nat.and_le_right, ?_, ?_⟩
  · intro c hc
    cases data with
    | nil => simp [parseMidiMessage] at hc
    | cons d rest =>
        exact hbytes c (List.get?_mem (by simpa [parseMidiMessage] using hc))
  · intro v hv
    cases data with
    | nil => simp [parseMidiMessage] at hv
    | cons d rest =>
        obtain ⟨d2, hd2, hval⟩ :
            ∃ d2, rest.get? 1 = some d2 ∧ v = (d2 : ℚ) / 127 := by
          cases h2 : rest.get? 1 with
          | none =>
              exfalso
              have hv2 : Option.map (fun (d : ℕ) => (d : ℚ) / 127) (rest.get? 1)
                  = some v := hv
              rw [h2] at hv2
              exact Option.noConfusion hv2
          | some d2 =>
              have hv2 : Option.map (fun (d : ℕ) => (d : ℚ) / 127) (rest.get? 1)
                  = some v := hv
              rw [h2, Option.map_some'] at hv2
              exact ⟨d2, rfl, (Option.some.inj hv2).symm⟩
        have hmem : d2 ∈ rest := List.get?_mem hd2
        have hle : (d2 : ℚ) ≤ 127 := by exact_mod_cast hbytes d2 hmem
        subst hval
        constructor
        · positivity
        · rw [div_le_one (by norm_num : (0 : ℚ) < 127)]
          exact hle

/-- C1: for every 3-byte raw message with command 8 or 9 on channels
0/15 (Note) or channel 9 (Pad), the emitted specialized event carries
velocity `+value` (`value = data[2] / 127`) when the command is 9 and
`-value` when the command is 8. -/
theorem handleMidi_velocity_sign (d0 d1 d2 : ℕ)
    (hcmd : d0 >>> 4 = 8 ∨ d0 >>> 4 = 9)
    (hch : d0 &&& 0xf = 0 ∨ d0 &&& 0xf = 15 ∨ d0 &&& 0xf = 9) :
    handleMidiMessage [d0, d1, d2] =
      [Event.message (parseMidiMessage [d0, d1, d2]),
       if d0 &&& 0xf = 9 then
         Event.pad (some d1)
           (some (if d0 >>> 4 = 9 then (d2 : ℚ) / 127 else -((d2 : ℚ) / 127)))
       else
         Event.note (some d1)
           (some (if d0 >>> 4 = 9 then (d2 : ℚ) / 127 else -((d2 : ℚ) / 127)))
           (some (noteCodeToFrequency d1))] := by
  rcases hcmd with hc | hc <;> rcases hch with h | h | h <;>
    simp [handleMidiMessage, parseMidiMessage, hc, h]

/-- Witness for C1 at the concrete raw message `[0x80, 60, 64]`
(note-off on channel 0): velocity is `-(64 / 127)`. -/
theorem handleMidi_velocity_sign_witness :
    ((128 : ℕ) >>> 4 = 8 ∨ (128 : ℕ) >>> 4 = 9) ∧
    ((128 : ℕ) &&& 0xf = 0 ∨ (128 : ℕ) &&& 0xf = 15 ∨ (128 : ℕ) &&& 0xf = 9) ∧
    handleMidiMessage [128, 60, 64] =
      [Event.message (parseMidiMessage [128, 60, 64]),
       if (128 : ℕ) &&& 0xf = 9 then
         Event.pad (some 60)
           (some (if (128 : ℕ) >>> 4 = 9 then (64 : ℚ) / 127 else -((64 : ℚ) / 127)))
       else
         Event.note (some 60)
           (some (if (128 : ℕ) >>> 4 = 9 then (64 : ℚ) / 127 else -((64 : ℚ) / 127)))
           (some (noteCodeToFrequency 60))] :=
  ⟨by decide, by decide,
    handleMidi_velocity_sign 128 60 64 (by decide) (by decide)⟩

/-- C2: for every 1–3 byte raw message, the handler first emits the
generic Message event with the parsed fields and then at most one
specialized event, exactly as the dispatch table says: Note iff command
∈ {8, 9} and channel ∈ {0, 15}; Pad iff command ∈ {8, 9} and channel 9;
ModWheel iff command 11 and code 1 (any channel); PitchBend iff command
14 (any channel); anything else fires no specialized event. -/
theorem handleMidi_dispatch (data : List ℕ)
    (_hlen1 : 1 ≤ data.length) (_hlen3 : data.length ≤ 3) :
    ∃ rest, handleMidiMessage data = Event.message (parseMidiMessage data) :: rest ∧
      rest.length ≤ 1 ∧
      ((∃ c v f, rest = [Event.note c v f]) ↔
        ((parseMidiMessage data).command = 8 ∨ (parseMidiMessage data).command = 9) ∧
        ((parseMidiMessage data).channel = 0 ∨ (parseMidiMessage data).channel = 15)) ∧
      ((∃ c v, rest = [Event.pad c v]) ↔
        ((parseMidiMessage data).command = 8 ∨ (parseMidiMessage data).command = 9) ∧
        (parseMidiMessage data).channel = 9) ∧
      ((∃ v, rest = [Event.modWheel v]) ↔
        (parseMidiMessage data).command = 11 ∧
        (parseMidiMessage data).code = some 1) ∧
      ((∃ v, rest = [Event.pitchBend v]) ↔ (parseMidiMessage data).command = 14) := by
  refine ⟨_, rfl, ?_⟩
  by_cases h8 : (parseMidiMessage data).command = 8
  · by_cases hch0 : (parseMidiMessage data).channel = 0
    · simp [h8, hch0]
    · by_cases hch15 : (parseMidiMessage data).channel = 15
      · simp [h8, hch0, hch15]
      · by_cases hch9 : (parseMidiMessage data).channel = 9
        · simp [h8, hch0, hch15, hch9]
        · simp [h8, hch0, hch15, hch9]
  · by_cases h9 : (parseMidiMessage data).command = 9
    · by_cases hch0 : (parseMidiMessage data).channel = 0
      · simp [h9, hch0]
      · by_cases hch15 : (parseMidiMessage data).channel = 15
        · simp [h9, hch0, hch15]
        · by_cases hch9 : (parseMidiMessage data).channel = 9
          · simp [h9, hch0, hch15, hch9]
          · simp [h9, hch0, hch15, hch9]
    · by_cases h11 : (parseMidiMessage data).command = 11
      · by_cases hcode : (parseMidiMessage data).code = some 1
        · simp [h8, h9, h11, hcode]
        · simp [h8, h9, h11, hcode]
      · by_cases h14 : (parseMidiMessage data).command = 14
        · simp [h8, h9, h11, h14]
        · simp [h8, h9, h11, h14]

/-- Witness for C2 at the concrete raw message `[0xE3, 0, 127]`
(pitch bend on channel 3): only the generic Message event and a
PitchBend event fire. -/
theorem handleMidi_dispatch_witness :
    1 ≤ ([227, 0, 127] : List ℕ).length ∧
    (∃ rest, handleMidiMessage [227, 0, 127] =
        Event.message (parseMidiMessage [227, 0, 127]) :: rest ∧
      rest.length ≤ 1 ∧
      ((∃ c v f, rest = [Event.note c v f]) ↔
        ((parseMidiMessage [227, 0, 127]).command = 8 ∨
          (parseMidiMessage [227, 0, 127]).command = 9) ∧
        ((parseMidiMessage [227, 0, 127]).channel = 0 ∨
          (parseMidiMessage [227, 0, 127]).channel = 15)) ∧
      ((∃ c v, rest = [Event.pad c v]) ↔
        ((parseMidiMessage [227, 0, 127]).command = 8 ∨
          (parseMidiMessage [227, 0, 127]).command = 9) ∧
        (parseMidiMessage [227, 0, 127]).channel = 9) ∧
      ((∃ v, rest = [Event.modWheel v]) ↔
        (parseMidiMessage [227, 0, 127]).command = 11 ∧
        (parseMidiMessage [227, 0, 127]).code = some 1) ∧
      ((∃ v, rest = [Event.pitchBend v]) ↔
        (parseMidiMessage [227, 0, 127]).command = 14)) :=
  ⟨by decide, handleMidi_dispatch [227, 0, 127] (by decide) (by decide)⟩

/-- Witness for C7 at the concrete raw message `[0x90, 60, 127]`. -/
theorem parse_field_bounds_witness :
    (∀ d ∈ ([144, 60, 127] : List ℕ).tail, d ≤ 127) ∧
    ((parseMidiMessage [144, 60, 127]).channel ≤ 15 ∧
     (∀ c, (parseMidiMessage [144, 60, 127]).code = some c → c ≤ 127) ∧
     (∀ v, (parseMidiMessage [144, 60, 127]).value = some v → 0 ≤ v ∧ v ≤ 1)) :=
  ⟨by decide, parse_field_bounds [144, 60, 127] (by decide)⟩

/-- C3: the very first curation call (stored count still `undefined`)
emits InputChange regardless of the open-connected count; every later
call emits InputChange with the full current name list and updates the
stored count exactly when the newly computed open-connected count
differs from the stored one, and emits nothing (stored count unchanged)
otherwise. -/
theorem curate_change_detection (inputs : List MIDIInput) (stored : Option ℕ) :
    ((curateMidiInputs inputs none).events =
        [Event.inputChange (inputs.map (fun input => input.name))] ∧
      (curateMidiInputs inputs none).numberOfOpenConnections =
        some (openConnectionCount inputs)) ∧
    (stored ≠ some (openConnectionCount inputs) →
      (curateMidiInputs inputs stored).events =
        [Event.inputChange (inputs.map (fun input => input.name))] ∧
      (curateMidiInputs inputs stored).numberOfOpenConnections =
        some (openConnectionCount inputs)) ∧
    (stored = some (openConnectionCount inputs) →
      (curateMidiInputs inputs stored).events = [] ∧
      (curateMidiInputs inputs stored).numberOfOpenConnections = stored) := by
  refine ⟨?_, ?_, ?_⟩
  · have h : some (openConnectionCount inputs) ≠ (none : Option ℕ) :=
      Option.some_ne_none _
    simp [curateMidiInputs, h]
  · intro hne
    have h : some (openConnectionCount inputs) ≠ stored :=
      fun heq => hne heq.symm
    simp [curateMidiInputs, h]
  · intro heq
    simp [curateMidiInputs, heq]

/-- Witness for C3: with one stored count of 1 and an empty device list
(count 0), curation emits InputChange and stores the new count. -/
theorem curate_change_detection_witness :
    (curateMidiInputs [] (some 1)).events =
      [Event.inputChange (([] : List MIDIInput).map (fun input => input.name))] ∧
    (curateMidiInputs [] (some 1)).numberOfOpenConnections =
      some (openConnectionCount []) :=
  (curate_change_detection [] (some 1)).2.1 (by decide)

/-- C9: every curation call, whether or not the open-connection count
changed, returns the input list with the per-message handler set to the
message classifier on every device — unconditionally re-attaching, even
to devices already wired. -/
theorem curate_reattaches_all_handlers (inputs : List MIDIInput)
    (stored : Option ℕ) :
    (curateMidiInputs inputs stored).inputs =
      inputs.map (fun input =>
        { input with onmidimessage := some (fun m => handleMidiMessage m) }) := by
  by_cases h : some (openConnectionCount inputs) ≠ stored <;>
    simp [curateMidiInputs, h]

/-- C10: whenever curation emits InputChange, the event's name list is
exactly the name of every input device in order, regardless of each
device's state or connection; in particular a list holding one
disconnected, closed device still contributes its name, making the list
longer than the open-connection count. -/
theorem inputChange_names_all_inputs :
    (∀ (inputs : List MIDIInput) (stored : Option ℕ),
      (curateMidiInputs inputs stored).events = [] ∨
      (curateMidiInputs inputs stored).events =
        [Event.inputChange (inputs.map (fun input => input.name))]) ∧
    (∃ inputs : List MIDIInput,
      openConnectionCount inputs < inputs.length ∧
      (curateMidiInputs inputs none).events =
        [Event.inputChange (inputs.map (fun input => input.name))]) := by
  constructor
  · intro inputs stored
    by_cases h : some (openConnectionCount inputs) ≠ stored
    · right; simp [curateMidiInputs, h]
    · left; simp [curateMidiInputs, h]
  · refine ⟨[⟨"in1", "USB Keys", "disconnected", "closed", none⟩], ?_, ?_⟩
    · decide
    · rfl

/-- The invocation log of `Caller.invoke` is exactly the snapshot taken
when the loop started, whatever the callbacks do to the live array. -/
theorem invokeFrom_fst (behavior : ℕ → List ℕ) :
    ∀ (snapshot st : List ℕ), (invokeFrom behavior snapshot st).1 = snapshot
  | [], _ => rfl
  | cb :: rest, st => by
      simp [invokeFrom, invokeFrom_fst behavior rest]

/-- `Caller.remove` leaves no occurrence of the removed callback. -/
theorem not_mem_remove (st : List ℕ) (c : ℕ) : c ∉ Caller.remove st c := by
  simp [Caller.remove]

/-- `Caller.remove` introduces no new callbacks. -/
theorem remove_preserves_not_mem {x : ℕ} {st : List ℕ} (h : x ∉ st)
    (c : ℕ) : x ∉ Caller.remove st c :=
  fun hm => h (List.mem_of_mem_filter hm)

/-- A fold of `Caller.remove` introduces no new callbacks. -/
theorem foldl_remove_not_mem {x : ℕ} :
    ∀ (cs : List ℕ) {st : List ℕ}, x ∉ st → x ∉ cs.foldl Caller.remove st
  | [], _, h => h
  | c :: cs, _, h =>
      foldl_remove_not_mem cs (remove_preserves_not_mem h c)

/-- Once a callback is gone from the live array, the rest of an
invocation pass (which only ever filters the array) cannot bring it
back. -/
theorem invokeFrom_snd_not_mem (behavior : ℕ → List ℕ) {c : ℕ} :
    ∀ (snapshot : List ℕ) {st : List ℕ}, c ∉ st →
      c ∉ (invokeFrom behavior snapshot st).2
  | [], _, h => h
  | cb :: rest, _, h =>
      invokeFrom_snd_not_mem behavior rest
        (foldl_remove_not_mem (behavior cb) h)

/-- If some callback in the snapshot removes `c` when invoked, `c` is
gone from the live array after the pass. -/
theorem invokeFrom_removes_self {c : ℕ} :
    ∀ (snapshot : List ℕ) (st : List ℕ), c ∈ snapshot →
      c ∉ (invokeFrom (fun x => if x = c then [c] else []) snapshot st).2 := by
  intro snapshot
  induction snapshot with
  | nil => intro st h; cases h
  | cons cb rest ih =>
      intro st h
      by_cases hcb : cb = c
      · subst hcb
        have h1 : cb ∉ ((if cb = cb then [cb] else []) : List ℕ).foldl Caller.remove st := by
          rw [if_pos rfl]
          exact not_mem_remove st cb
        exact invokeFrom_snd_not_mem _ rest h1
      · rcases List.mem_cons.mp h with heq | hrest
        · exact absurd heq.symm hcb
        · simpa [invokeFrom, hcb] using ih st hrest

/-- C5: a callback that unsubscribes itself from within its own
invocation does not break the in-progress iteration (every callback of
the snapshot is still invoked, in order), and it is absent from the
callback array afterwards, so the next invocation pass — which invokes
exactly the registered callbacks — never calls it again.  (`Caller.remove`
rebuilds the array with `filter`, so the operation is total: nothing to
throw.) -/
theorem caller_self_removal_safe (callbacks : List ℕ) (c : ℕ)
    (hc : c ∈ callbacks) :
    (Caller.invoke (fun x => if x = c then [c] else []) callbacks).1 = callbacks ∧
    c ∉ (Caller.invoke (fun x => if x = c then [c] else []) callbacks).2 ∧
    (Caller.invoke (fun _ => [])
        (Caller.invoke (fun x => if x = c then [c] else []) callbacks).2).1 =
      (Caller.invoke (fun x => if x = c then [c] else []) callbacks).2 ∧
    c ∉ (Caller.invoke (fun _ => [])
        (Caller.invoke (fun x => if x = c then [c] else []) callbacks).2).1 := by
  have h2 : c ∉ (Caller.invoke (fun x => if x = c then [c] else []) callbacks).2 :=
    invokeFrom_removes_self callbacks callbacks hc
  have h3 : (Caller.invoke (fun _ => [])
      (Caller.invoke (fun x => if x = c then [c] else []) callbacks).2).1 =
      (Caller.invoke (fun x => if x = c then [c] else []) callbacks).2 :=
    invokeFrom_fst _ _ _
  exact ⟨invokeFrom_fst _ _ _, h2, h3, by rw [h3]; exact h2⟩

/-- Witness for C5: callback 2 removes itself while `[1, 2, 3]` is being
invoked; the full snapshot still runs and 2 is gone afterwards. -/
theorem caller_self_removal_safe_witness :
    (2 ∈ [1, 2, 3]) ∧
    ((Caller.invoke (fun x => if x = 2 then [2] else []) [1, 2, 3]).1 = [1, 2, 3] ∧
     2 ∉ (Caller.invoke (fun x => if x = 2 then [2] else []) [1, 2, 3]).2 ∧
     (Caller.invoke (fun _ => [])
         (Caller.invoke (fun x => if x = 2 then [2] else []) [1, 2, 3]).2).1 =
       (Caller.invoke (fun x => if x = 2 then [2] else []) [1, 2, 3]).2 ∧
     2 ∉ (Caller.invoke (fun _ => [])
         (Caller.invoke (fun x => if x = 2 then [2] else []) [1, 2, 3]).2).1) :=
  ⟨by decide, caller_self_removal_safe [1, 2, 3] 2 (by decide)⟩

/-- Removing a callback leaves the multiplicity of every other callback
unchanged. -/
theorem count_remove_of_ne (callbacks : List ℕ) (c d : ℕ) (hd : d ≠ c) :
    (Caller.remove callbacks c).count d = callbacks.count d := by
  unfold Caller.remove
  exact List.count_filter (by simpa using hd)

/-- What the revocation closure does to one event's callback array:
nothing when the configuration has no callback for that event; with a
callback `c`, the array becomes the original with every occurrence of
`c` filtered out, the next invocation pass never calls `c`, and every
other callback keeps its multiplicity in the next invocation pass. -/
def removesExactly (before after : List ℕ) : Option ℕ → Prop
  | none => after = before
  | some c =>
      after = before.filter (fun cb => cb ≠ c) ∧
      c ∉ (Caller.invoke (fun _ => []) after).1 ∧
      ∀ d, d ≠ c →
        (Caller.invoke (fun _ => []) after).1.count d =
          (Caller.invoke (fun _ => []) before).1.count d

/-- `removeIfPresent` satisfies the removal contract. -/
theorem removesExactly_removeIfPresent (before : List ℕ) (cb : Option ℕ) :
    removesExactly before (removeIfPresent before cb) cb := by
  cases cb with
  | none => rfl
  | some c =>
      refine ⟨rfl, ?_, ?_⟩
      · rw [Caller.invoke, invokeFrom_fst]
        simp [removeIfPresent, Caller.remove]
      · intro d hd
        rw [Caller.invoke, invokeFrom_fst, Caller.invoke, invokeFrom_fst]
        exact count_remove_of_ne before c d hd

/-- Freshness of one optional callback with respect to one callback
array: the callback (when present) is not yet subscribed there. -/
def freshFor (callbacks : List ℕ) : Option ℕ → Prop
  | none => True
  | some c => c ∉ callbacks

/-- Adding a fresh callback and then removing it restores the original
callback array. -/
theorem removeIfPresent_addIfPresent (before : List ℕ) (cb : Option ℕ)
    (h : freshFor before cb) :
    removeIfPresent (addIfPresent before cb) cb = before := by
  cases cb with
  | none => rfl
  | some c =>
      simp only [addIfPresent, removeIfPresent, Caller.add, Caller.remove]
      rw [List.filter_append]
      have h1 : before.filter (fun cb => cb ≠ c) = before :=
        List.filter_eq_self.mpr (fun x hx => by
          have hxc : x ≠ c := fun heq => h (heq ▸ hx)
          simpa using hxc)
      have h2 : ([c] : List ℕ).filter (fun cb => cb ≠ c) = [] := by simp
      rw [h1, h2, List.append_nil]

/-- C8: the revocation handle returned by `subscribe` removes exactly
the callbacks that were passed to that `subscribe` call, from every
event kind: each of those callbacks is gone and never invoked on the
next event, every other subscribed callback keeps its registrations and
invocations unchanged, and on the state `subscribe` itself produced
(with previously unsubscribed callbacks) the handle restores the
original state exactly. -/
theorem subscribe_handle_removes_exactly (events : EventCallers)
    (cfg : MidiListenerEventCallbacks)
    (hfresh1 : freshFor events.onInputChange cfg.onInputChange)
    (hfresh2 : freshFor events.onMessage cfg.onMessage)
    (hfresh3 : freshFor events.onNote cfg.onNote)
    (hfresh4 : freshFor events.onPad cfg.onPad)
    (hfresh5 : freshFor events.onPitchBend cfg.onPitchBend)
    (hfresh6 : freshFor events.onModWheel cfg.onModWheel) :
    removesExactly events.onInputChange
      (unsubscribe events cfg).onInputChange cfg.onInputChange ∧
    removesExactly events.onMessage
      (unsubscribe events cfg).onMessage cfg.onMessage ∧
    removesExactly events.onNote
      (unsubscribe events cfg).onNote cfg.onNote ∧
    removesExactly events.onPad
      (unsubscribe events cfg).onPad cfg.onPad ∧
    removesExactly events.onPitchBend
      (unsubscribe events cfg).onPitchBend cfg.onPitchBend ∧
    removesExactly events.onModWheel
      (unsubscribe events cfg).onModWheel cfg.onModWheel ∧
    unsubscribe (subscribe events cfg) cfg = events := by
  refine ⟨removesExactly_removeIfPresent _ _, removesExactly_removeIfPresent _ _,
    removesExactly_removeIfPresent _ _, removesExactly_removeIfPresent _ _,
    removesExactly_removeIfPresent _ _, removesExactly_removeIfPresent _ _, ?_⟩
  cases events with
  | mk e1 e2 e3 e4 e5 e6 =>
      simp only [subscribe, unsubscribe]
      rw [removeIfPresent_addIfPresent _ _ hfresh1,
        removeIfPresent_addIfPresent _ _ hfresh2,
        removeIfPresent_addIfPresent _ _ hfresh3,
        removeIfPresent_addIfPresent _ _ hfresh4,
        removeIfPresent_addIfPresent _ _ hfresh5,
        removeIfPresent_addIfPresent _ _ hfresh6]

/-- Witness for C8: subscribing callback 7 to `onNote` beside an
existing callback 5 and then invoking the returned handle removes
exactly callback 7 and restores the original state. -/
theorem subscribe_handle_removes_exactly_witness :
    removesExactly [] (unsubscribe ⟨[], [], [5], [], [], []⟩
      ⟨none, none, some 7, none, none, none⟩).onInputChange none ∧
    removesExactly [] (unsubscribe ⟨[], [], [5], [], [], []⟩
      ⟨none, none, some 7, none, none, none⟩).onMessage none ∧
    removesExactly [5] (unsubscribe ⟨[], [], [5], [], [], []⟩
      ⟨none, none, some 7, none, none, none⟩).onNote (some 7) ∧
    removesExactly [] (unsubscribe ⟨[], [], [5], [], [], []⟩
      ⟨none, none, some 7, none, none, none⟩).onPad none ∧
    removesExactly [] (unsubscribe ⟨[], [], [5], [], [], []⟩
      ⟨none, none, some 7, none, none, none⟩).onPitchBend none ∧
    removesExactly [] (unsubscribe ⟨[], [], [5], [], [], []⟩
      ⟨none, none, some 7, none, none, none⟩).onModWheel none ∧
    unsubscribe (subscribe ⟨[], [], [5], [], [], []⟩
        ⟨none, none, some 7, none, none, none⟩)
      ⟨none, none, some 7, none, none, none⟩ = ⟨[], [], [5], [], [], []⟩ :=
  subscribe_handle_removes_exactly ⟨[], [], [5], [], [], []⟩
    ⟨none, none, some 7, none, none, none⟩
    trivial trivial (by simp [freshFor]) trivial trivial trivial
